import Mathlib

/-!
Shallow embedding of the task-tracker application built on the InSpatial
Cloud framework.  The repository declares one entry type ("task") with five
business fields and two custom actions, and bundles it into a single
CloudExtension.  The generic entry engine (field validation, record store,
action dispatcher) lives in the external framework; where a claim depends on
it, the engine is modelled from the spec and marked as such.
-/

namespace TaskTracker

/-- Runtime values carried by entry fields. -/
inductive Value where
  | str (s : String)
  | bool (b : Bool)
  | int (n : Int)
deriving DecidableEq

/-- Field kinds of the framework, from the field-types reference table. -/
inductive FieldType where
  | DataField
  | TextField
  | IntField
  | DecimalField
  | BooleanField
  | EmailField
  | DateField
  | TimeStampField
  | ChoicesField
  | ConnectionField
  | JSONField
  | ImageField
  | ArrayField
deriving DecidableEq

/-- One selectable option of a ChoicesField. -/
structure Choice where
  value : String
  label : String
deriving DecidableEq

/-- A declared field of an entry type, mirroring the object literals in
src/entries/task.ts.  Properties absent from a literal default to
`none` / `false`. -/
structure FieldDef where
  key : String
  type : FieldType
  label : String
  description : String := ""
  required : Bool := false
  defaultValue : Option Value := none
  choices : Option (List Choice) := none
deriving DecidableEq

/-- Primitive effects an action handler performs on its loaned entry:
a dollar-prefixed field assignment, a save() call, or an abnormal exit. -/
inductive EntryOp where
  | setField (key : String) (value : Value)
  | save
  | fail
deriving DecidableEq

/-- The static part of the object an action handler returns (the handler also
returns the entry's clientData, which the dispatcher model returns as the
persisted record alongside this). -/
structure ActionRes where
  success : Bool
  message : String
deriving DecidableEq

/-- A custom action declared on an entry type.  The handler body is embedded
as the sequence of primitive effects it performs. -/
structure ActionDef where
  key : String
  label : String
  description : String
  params : List FieldDef
  prog : List EntryOp
  result : ActionRes
deriving DecidableEq

/-- An entry type declaration, mirroring the EntryType constructor options. -/
structure EntryTypeDef where
  name : String
  label : String
  description : String
  titleField : String
  fields : List FieldDef
  actions : List ActionDef
  searchFields : List String
  defaultListFields : List String
  defaultSortField : String
  defaultSortDirection : String
deriving DecidableEq

/-- The title field of the task entry type. -/
def titleF : FieldDef :=
  { key := "title"
    type := FieldType.DataField
    label := "Task Title"
    description := "The title of the task"
    required := true }

/-- The description field of the task entry type. -/
def descriptionF : FieldDef :=
  { key := "description"
    type := FieldType.TextField
    label := "Description"
    description := "Detailed description of the task"
    required := false }

/-- The isCompleted field of the task entry type. -/
def isCompletedF : FieldDef :=
  { key := "isCompleted"
    type := FieldType.BooleanField
    label := "Completed"
    description := "Whether the task has been completed"
    defaultValue := some (Value.bool false)
    required := false }

/-- The priority field of the task entry type. -/
def priorityF : FieldDef :=
  { key := "priority"
    type := FieldType.ChoicesField
    label := "Priority"
    description := "The priority level of the task"
    choices := some
      [ { value := "low", label := "Low" }
      , { value := "medium", label := "Medium" }
      , { value := "high", label := "High" } ]
    defaultValue := some (Value.str "medium")
    required := false }

/-- The dueDate field of the task entry type. -/
def dueDateF : FieldDef :=
  { key := "dueDate"
    type := FieldType.DateField
    label := "Due Date"
    description := "The due date for the task"
    required := false }

/-- The markComplete action: the handler sets entry.$isCompleted to true,
awaits entry.save(), and returns a success object. -/
def markCompleteDef : ActionDef :=
  { key := "markComplete"
    label := "Mark as Complete"
    description := "Marks the task as completed"
    params := []
    prog := [EntryOp.setField "isCompleted" (Value.bool true), EntryOp.save]
    result := { success := true, message := "Task marked as complete" } }

/-- The markIncomplete action: the handler sets entry.$isCompleted to false,
awaits entry.save(), and returns a success object. -/
def markIncompleteDef : ActionDef :=
  { key := "markIncomplete"
    label := "Mark as Incomplete"
    description := "Marks the task as incomplete"
    params := []
    prog := [EntryOp.setField "isCompleted" (Value.bool false), EntryOp.save]
    result := { success := true, message := "Task marked as incomplete" } }

/-- The task entry type, from src/entries/task.ts. -/
def taskEntry : EntryTypeDef :=
  { name := "task"
    label := "Task"
    description := "A task item in the task tracker"
    titleField := "title"
    fields := [titleF, descriptionF, isCompletedF, priorityF, dueDateF]
    actions := [markCompleteDef, markIncompleteDef]
    searchFields := ["title", "description"]
    defaultListFields := ["title", "isCompleted", "priority", "dueDate"]
    defaultSortField := "createdAt"
    defaultSortDirection := "desc" }

/-- Placeholder for a SettingsType declaration (none are declared here). -/
structure SettingsTypeDef where
  name : String
deriving DecidableEq

/-- Placeholder for a CloudAPIGroup declaration (none are declared here). -/
structure APIGroupDef where
  name : String
deriving DecidableEq

/-- Placeholder for a Role declaration (none are declared here). -/
structure RoleDef where
  name : String
deriving DecidableEq

/-- Placeholder for a middleware declaration (none are declared here). -/
structure MiddlewareDef where
  name : String
deriving DecidableEq

/-- Placeholder for a path-handler declaration (none are declared here). -/
structure PathHandlerDef where
  name : String
deriving DecidableEq

/-- A CloudExtension bundle, mirroring the constructor options. -/
structure CloudExtension where
  name : String
  label : String
  description : String
  version : String
  entryTypes : List EntryTypeDef
  settingsTypes : List SettingsTypeDef
  apiGroups : List APIGroupDef
  roles : List RoleDef
  middleware : List MiddlewareDef
  pathHandlers : List PathHandlerDef
deriving DecidableEq

/-- The taskTracker extension, from src/task-tracker-extension.ts. -/
def taskTrackerExtension : CloudExtension :=
  { name := "taskTracker"
    label := "Task Tracker"
    description := "A simple task tracking module for InSpatial Cloud"
    version := "1.0.0"
    entryTypes := [taskEntry]
    settingsTypes := []
    apiGroups := []
    roles := []
    middleware := []
    pathHandlers := [] }

/-- Fields every entry type carries automatically, managed by the framework
(from the automatic-fields table of the framework guide). -/
def frameworkManagedFields : List String :=
  ["id", "createdAt", "updatedAt", "in__tags"]

/-- Modelled from the spec: association-list lookup by key, used for record
field maps and for the record store keyed by entry id. -/
def lookupKV {α : Type} (l : List (String × α)) (k : String) : Option α :=
  match l.find? (fun p => p.1 == k) with
  | some p => some p.2
  | none => none

/-- Modelled from the spec: association-list update, replacing the first
binding of the key or appending one. -/
def setKV {α : Type} : List (String × α) → String → α → List (String × α)
  | [], k, v => [(k, v)]
  | p :: rest, k, v => if p.1 == k then (k, v) :: rest else p :: setKV rest k v

/-- Modelled from the spec: a stored record of a schema, with the minted id,
the field map, and the store-managed timestamps. -/
structure EntryRecord where
  id : String
  fields : List (String × Value)
  createdAt : Nat
  updatedAt : Nat
deriving DecidableEq

/-- Read a business field off a record. -/
def getField (r : EntryRecord) (k : String) : Option Value :=
  lookupKV r.fields k

/-- Write a business field on a record. -/
def setEntryField (r : EntryRecord) (k : String) (v : Value) : EntryRecord :=
  { r with fields := setKV r.fields k v }

/-- Modelled from the spec: the mutation handle the dispatcher loans to an
action handler — the in-memory copy, the stored copy, the dirty flag, and a
count of the save() calls made so far. -/
structure HandleState where
  mem : EntryRecord
  stored : EntryRecord
  dirty : Bool
  saveCount : Nat
deriving DecidableEq

/-- A fresh handle on a loaded record. -/
def initHandle (r : EntryRecord) : HandleState :=
  { mem := r, stored := r, dirty := false, saveCount := 0 }

/-- A dollar-prefixed assignment: mutates the in-memory copy and marks the
handle dirty; the stored copy is untouched. -/
def applySet (s : HandleState) (k : String) (v : Value) : HandleState :=
  { s with mem := setEntryField s.mem k v, dirty := true }

/-- A save() call: re-stamps updatedAt, persists the in-memory copy, and
clears the dirty flag. -/
def applySave (now : Nat) (s : HandleState) : HandleState :=
  let m := { s.mem with updatedAt := now }
  { s with mem := m, stored := m, dirty := false, saveCount := s.saveCount + 1 }

/-- Modelled from the spec: run a handler body over the loaned handle.  The
Bool records normal completion; an abnormal exit stops execution at once. -/
def runProg (now : Nat) : List EntryOp → HandleState → HandleState × Bool
  | [], s => (s, true)
  | EntryOp.setField k v :: rest, s => runProg now rest (applySet s k v)
  | EntryOp.save :: rest, s => runProg now rest (applySave now s)
  | EntryOp.fail :: _, s => (s, false)

/-- Count of save() calls a handler body makes when it runs to completion. -/
def savesIn (prog : List EntryOp) : Nat :=
  prog.countP (fun op => op == EntryOp.save)

/-- Modelled from the spec: the record store, keyed by entry id. -/
abbrev Store := List (String × EntryRecord)

/-- Fetch a record by id. -/
def getEntry (store : Store) (id : String) : Option EntryRecord :=
  lookupKV store id

/-- Persist a record under an id. -/
def putEntry (store : Store) (id : String) (r : EntryRecord) : Store :=
  setKV store id r

/-- Modelled from the spec: the action dispatcher.  It resolves the action by
key on the task schema, loads the record, runs the handler over a fresh
handle, and keeps exactly what the handler committed via save(): changes made
after the last save() — in particular all changes of a handler that fails
before any save() — are discarded.  The outer Option is none for an unknown
action or a missing record; the inner Option is none when the handler failed,
and otherwise carries the handler result and the persisted record
(the entry clientData). -/
def runEntryAction (now : Nat) (store : Store) (id : String) (actionKey : String) :
    Option (Store × Option (ActionRes × EntryRecord)) :=
  match taskEntry.actions.find? (fun a => a.key == actionKey) with
  | none => none
  | some a =>
    match getEntry store id with
    | none => none
    | some rec =>
      let out := runProg now a.prog (initHandle rec)
      some (putEntry store id out.1.stored,
        if out.2 then some (a.result, out.1.stored) else none)

/-- Modelled from the spec: the reasons a field validator can fail with. -/
inductive FailReason where
  | missing_required
  | wrong_type
  | not_in_choices
  | malformed_date
deriving DecidableEq

/-- Modelled from the spec: one entry of an aggregate FieldValidationError. -/
structure FieldError where
  field : String
  reason : FailReason
deriving DecidableEq

/-- Modelled from the spec: the per-kind check of a supplied value against a
field declaration. -/
def checkValue (f : FieldDef) (v : Value) : Option FailReason :=
  match f.type, v with
  | FieldType.DataField, Value.str _ => none
  | FieldType.TextField, Value.str _ => none
  | FieldType.DateField, Value.str _ => none
  | FieldType.BooleanField, Value.bool _ => none
  | FieldType.IntField, Value.int _ => none
  | FieldType.TimeStampField, Value.int _ => none
  | FieldType.ChoicesField, Value.str s =>
    match f.choices with
    | some cs =>
      if cs.any (fun c => c.value == s) then none else some FailReason.not_in_choices
    | none => some FailReason.not_in_choices
  | _, _ => some FailReason.wrong_type

/-- Modelled from the spec: the validation failure, if any, a declared field
contributes for a creation payload — a kind/choices failure when the field is
supplied, missing_required when a required field is omitted. -/
def fieldErrOf (payload : List (String × Value)) (f : FieldDef) : Option FieldError :=
  match lookupKV payload f.key with
  | some v =>
    match checkValue f v with
    | some reason => some { field := f.key, reason := reason }
    | none => none
  | none =>
    if f.required then some { field := f.key, reason := FailReason.missing_required }
    else none

/-- Modelled from the spec: the binding a declared field contributes to the
created record — the supplied value when present, the declared default when a
non-required field is omitted, nothing otherwise.  Undeclared payload keys
are silently dropped because only declared fields are resolved. -/
def resolveField (payload : List (String × Value)) (f : FieldDef) : Option (String × Value) :=
  match lookupKV payload f.key with
  | some v => some (f.key, v)
  | none =>
    if f.required then none
    else
      match f.defaultValue with
      | some d => some (f.key, d)
      | none => none

/-- Holds when a creation payload gives a declared field no validation
failure. -/
def fieldOk (payload : List (String × Value)) (f : FieldDef) : Bool :=
  (fieldErrOf payload f).isNone

/-- Modelled from the spec: createEntry on the task schema.  Validation runs
field by field and all failures are collected; on success the record is built
from the resolved declared fields, with the minted id and the store-stamped
timestamps. -/
def createEntry (payload : List (String × Value)) (id : String) (now : Nat) :
    Except (List FieldError) EntryRecord :=
  match taskEntry.fields.filterMap (fieldErrOf payload) with
  | [] =>
    Except.ok
      { id := id
        fields := taskEntry.fields.filterMap (resolveField payload)
        createdAt := now
        updatedAt := now }
  | errs => Except.error errs

/-- A concrete stored task record used to evaluate the theorems. -/
def sampleRecord : EntryRecord :=
  { id := "t1"
    fields :=
      [ ("title", Value.str "Buy Groceries")
      , ("description", Value.str "Milk, Eggs, Bread")
      , ("isCompleted", Value.bool false)
      , ("priority", Value.str "high") ]
    createdAt := 1
    updatedAt := 1 }

/-- A concrete store holding the sample record. -/
def sampleStore : Store := [("t1", sampleRecord)]

/-- The record a markComplete invocation persists, given the loaded record. -/
def completedRec (now : Nat) (r : EntryRecord) : EntryRecord :=
  { setEntryField r "isCompleted" (Value.bool true) with updatedAt := now }

/-- The record a markIncomplete invocation persists, given the loaded
record. -/
def uncompletedRec (now : Nat) (r : EntryRecord) : EntryRecord :=
  { setEntryField r "isCompleted" (Value.bool false) with updatedAt := now }

theorem lookupKV_setKV_self {α : Type} (l : List (String × α)) (k : String) (v : α) :
    lookupKV (setKV l k v) k = some v := by
  induction l with
  | nil => simp [setKV, lookupKV]
  | cons p rest ih =>
    by_cases hp : p.1 = k
    · simp [setKV, lookupKV, hp]
    · simpa [setKV, lookupKV, hp] using ih

theorem lookupKV_setKV_other {α : Type} (l : List (String × α)) (k k' : String) (v : α)
    (hne : k' ≠ k) : lookupKV (setKV l k v) k' = lookupKV l k' := by
  have hne' : k ≠ k' := Ne.symm hne
  induction l with
  | nil => simp [setKV, lookupKV, hne']
  | cons p rest ih =>
    by_cases hp : p.1 = k
    · simp [setKV, lookupKV, hp, hne']
    · by_cases hp' : p.1 = k'
      · simp [setKV, lookupKV, hp, hp', hne]
      · simpa [setKV, lookupKV, hp, hp'] using ih

theorem resolveField_key (payload : List (String × Value)) (f : FieldDef)
    (kv : String × Value) (h : resolveField payload f = some kv) : kv.1 = f.key := by
  unfold resolveField at h
  cases hl : lookupKV payload f.key <;> rw [hl] at h
  · by_cases hr : f.required
    · rw [if_pos hr] at h
      exact absurd h (by simp)
    · rw [if_neg hr] at h
      cases hd : f.defaultValue <;> rw [hd] at h
      · exact absurd h (by simp)
      · cases h
        rfl
  · cases h
    rfl

theorem lookupKV_filterMap_resolveField_none (payload : List (String × Value)) (k : String) :
    ∀ fields : List FieldDef, (∀ f ∈ fields, f.key ≠ k) →
      lookupKV (fields.filterMap (resolveField payload)) k = none := by
  intro fields
  induction fields with
  | nil => intro _; rfl
  | cons f fs ih =>
    intro h
    have hk : f.key ≠ k := h f (List.mem_cons_self f fs)
    have hrest := ih (fun g hg => h g (List.mem_cons_of_mem f hg))
    cases hr : resolveField payload f with
    | none => simpa [List.filterMap_cons, hr] using hrest
    | some kv =>
      have hkey : kv.1 = f.key := resolveField_key payload f kv hr
      simpa [List.filterMap_cons, hr, lookupKV, List.find?, hkey, hk] using hrest

theorem lookupKV_filterMap_resolveField (payload : List (String × Value)) (k : String) :
    ∀ fields : List FieldDef, (fields.map FieldDef.key).Nodup →
      lookupKV (fields.filterMap (resolveField payload)) k =
        Option.bind (fields.find? (fun f => f.key == k))
          (fun f => Option.map Prod.snd (resolveField payload f)) := by
  intro fields
  induction fields with
  | nil => intro _; rfl
  | cons f fs ih =>
    intro hnd
    rw [List.map_cons, List.nodup_cons] at hnd
    obtain ⟨hknotin, hnd'⟩ := hnd
    by_cases hfk : f.key = k
    · rw [List.find?_cons_of_pos _ (by simp [hfk])]
      cases hr : resolveField payload f with
      | some kv =>
        have hkey : kv.1 = f.key := resolveField_key payload f kv hr
        simp [List.filterMap_cons, hr, lookupKV, List.find?, hkey, hfk]
      | none =>
        have hout : ∀ g ∈ fs, g.key ≠ k := fun g hg hEq =>
          hknotin (by rw [hfk, ← hEq]; exact List.mem_map_of_mem _ hg)
        simp [List.filterMap_cons, hr,
          lookupKV_filterMap_resolveField_none payload k fs hout]
    · rw [List.find?_cons_of_neg _ (by simp [hfk])]
      cases hr : resolveField payload f with
      | some kv =>
        have hkey : kv.1 = f.key := resolveField_key payload f kv hr
        simpa [List.filterMap_cons, hr, lookupKV, List.find?, hkey, hfk]
          using ih hnd'
      | none =>
        simpa [List.filterMap_cons, hr] using ih hnd'

theorem getField_completedRec (now : Nat) (r : EntryRecord) :
    getField (completedRec now r) "isCompleted" = some (Value.bool true) := by
  simp [completedRec, getField, setEntryField, lookupKV_setKV_self]

theorem getField_completedRec_other (now : Nat) (r : EntryRecord) (k : String)
    (h : k ≠ "isCompleted") : getField (completedRec now r) k = getField r k := by
  simp [completedRec, getField, setEntryField, lookupKV_setKV_other _ _ _ _ h]

theorem getField_uncompletedRec (now : Nat) (r : EntryRecord) :
    getField (uncompletedRec now r) "isCompleted" = some (Value.bool false) := by
  simp [uncompletedRec, getField, setEntryField, lookupKV_setKV_self]

theorem getField_uncompletedRec_other (now : Nat) (r : EntryRecord) (k : String)
    (h : k ≠ "isCompleted") : getField (uncompletedRec now r) k = getField r k := by
  simp [uncompletedRec, getField, setEntryField, lookupKV_setKV_other _ _ _ _ h]

theorem runEntryAction_markComplete_eq (now : Nat) (store : Store) (id : String)
    (r : EntryRecord) (h : getEntry store id = some r) :
    runEntryAction now store id "markComplete" =
      some (putEntry store id (completedRec now r),
        some (markCompleteDef.result, completedRec now r)) := by
  have hstep : runEntryAction now store id "markComplete" =
      match getEntry store id with
      | none => none
      | some rec =>
        some (putEntry store id (completedRec now rec),
          some (markCompleteDef.result, completedRec now rec)) := rfl
  rw [hstep, h]

theorem runEntryAction_markIncomplete_eq (now : Nat) (store : Store) (id : String)
    (r : EntryRecord) (h : getEntry store id = some r) :
    runEntryAction now store id "markIncomplete" =
      some (putEntry store id (uncompletedRec now r),
        some (markIncompleteDef.result, uncompletedRec now r)) := by
  have hstep : runEntryAction now store id "markIncomplete" =
      match getEntry store id with
      | none => none
      | some rec =>
        some (putEntry store id (uncompletedRec now rec),
          some (markIncompleteDef.result, uncompletedRec now rec)) := rfl
  rw [hstep, h]

theorem getEntry_putEntry_self (store : Store) (id : String) (r : EntryRecord) :
    getEntry (putEntry store id r) id = some r :=
  lookupKV_setKV_self store id r

theorem saveCount_le_runProg (now : Nat) : ∀ (prog : List EntryOp) (s : HandleState),
    s.saveCount ≤ (runProg now prog s).1.saveCount := by
  intro prog
  induction prog with
  | nil => intro s; exact Nat.le_refl _
  | cons op rest ih =>
    intro s
    cases op with
    | setField k v => exact ih (applySet s k v)
    | save => exact Nat.le_trans (Nat.le_succ _) (ih (applySave now s))
    | fail => exact Nat.le_refl _

theorem runProg_stored_unchanged_without_save (now : Nat) :
    ∀ (prog : List EntryOp) (s : HandleState),
      (runProg now prog s).1.saveCount = s.saveCount →
      (runProg now prog s).1.stored = s.stored := by
  intro prog
  induction prog with
  | nil => intro s _; rfl
  | cons op rest ih =>
    intro s hcount
    cases op with
    | setField k v => exact ih (applySet s k v) hcount
    | save =>
      exfalso
      have hle := saveCount_le_runProg now rest (applySave now s)
      simp only [runProg] at hcount
      rw [hcount] at hle
      exact absurd hle (Nat.not_succ_le_self _)
    | fail => rfl

/-- C4: the repository declares exactly one data model — the task schema —
with exactly the five business fields title, description, isCompleted,
priority and dueDate; title is the only field declared required=true, and the
framework-managed audit fields id, createdAt and updatedAt are not among the
declared business fields. -/
theorem task_schema_shape :
    taskTrackerExtension.entryTypes = [taskEntry] ∧
    taskEntry.fields.map FieldDef.key =
      ["title", "description", "isCompleted", "priority", "dueDate"] ∧
    (∀ f ∈ taskEntry.fields, (f.required = true ↔ f.key = "title")) ∧
    "id" ∉ taskEntry.fields.map FieldDef.key ∧
    "createdAt" ∉ taskEntry.fields.map FieldDef.key ∧
    "updatedAt" ∉ taskEntry.fields.map FieldDef.key :=
  ⟨rfl, rfl, by decide, by decide, by decide, by decide⟩

/-- C6: in the task schema a choices list is present on a field iff the
field's kind is ChoicesField; priority is the only field declaring choices,
its kind is ChoicesField, and its choice values low, medium, high are
pairwise distinct. -/
theorem choices_present_iff_enum_kind :
    (∀ f ∈ taskEntry.fields, (f.choices.isSome = true ↔ f.type = FieldType.ChoicesField)) ∧
    (∀ f ∈ taskEntry.fields, f.choices.isSome = true → f.key = "priority") ∧
    taskEntry.fields.find? (fun f => f.key == "priority") = some priorityF ∧
    priorityF.type = FieldType.ChoicesField ∧
    Option.map (fun cs => cs.map Choice.value) priorityF.choices =
      some ["low", "medium", "high"] ∧
    ((priorityF.choices.getD []).map Choice.value).Nodup :=
  ⟨by decide, by decide, by decide, rfl, rfl, by decide⟩

/-- C7: the task schema satisfies the schema-registration invariant: the
declared field keys are pairwise distinct, the defaultSortField is createdAt,
which names a declared field or a framework-managed field, and the declared
default sort direction is desc. -/
theorem schema_registration_invariant :
    (taskEntry.fields.map FieldDef.key).Nodup ∧
    taskEntry.defaultSortField = "createdAt" ∧
    (taskEntry.defaultSortField ∈ taskEntry.fields.map FieldDef.key ∨
      taskEntry.defaultSortField ∈ frameworkManagedFields) ∧
    taskEntry.defaultSortDirection = "desc" :=
  ⟨by decide, rfl, by decide, rfl⟩

/-- C8: the taskTracker extension bundles exactly the one task entry type
together with empty extension points: its entryTypes list is exactly
the task entry type, and its settingsTypes, apiGroups, roles, middleware and
pathHandlers lists are all empty. -/
theorem extension_bundles_single_entry_type :
    taskTrackerExtension.entryTypes = [taskEntry] ∧
    taskTrackerExtension.settingsTypes = [] ∧
    taskTrackerExtension.apiGroups = [] ∧
    taskTrackerExtension.roles = [] ∧
    taskTrackerExtension.middleware = [] ∧
    taskTrackerExtension.pathHandlers = [] :=
  ⟨rfl, rfl, rfl, rfl, rfl, rfl⟩

/-- C1: running markComplete on a stored task record sets isCompleted to true
and persists it, so a subsequent getEntry on the same id returns a record
with isCompleted=true; running markIncomplete on that record sets isCompleted
back to false and persists it. -/
theorem markComplete_sets_and_persists (store : Store) (id : String) (r : EntryRecord)
    (now now' : Nat) (h : getEntry store id = some r) :
    ∃ s1 res1 r1,
      runEntryAction now store id "markComplete" = some (s1, some (res1, r1)) ∧
      getEntry s1 id = some r1 ∧
      getField r1 "isCompleted" = some (Value.bool true) ∧
      ∃ s2 res2 r2,
        runEntryAction now' s1 id "markIncomplete" = some (s2, some (res2, r2)) ∧
        getEntry s2 id = some r2 ∧
        getField r2 "isCompleted" = some (Value.bool false) :=
  ⟨putEntry store id (completedRec now r), markCompleteDef.result, completedRec now r,
    runEntryAction_markComplete_eq now store id r h,
    getEntry_putEntry_self store id (completedRec now r),
    getField_completedRec now r,
    putEntry (putEntry store id (completedRec now r)) id
      (uncompletedRec now' (completedRec now r)),
    markIncompleteDef.result, uncompletedRec now' (completedRec now r),
    runEntryAction_markIncomplete_eq now' (putEntry store id (completedRec now r)) id
      (completedRec now r) (getEntry_putEntry_self store id (completedRec now r)),
    getEntry_putEntry_self (putEntry store id (completedRec now r)) id
      (uncompletedRec now' (completedRec now r)),
    getField_uncompletedRec now' (completedRec now r)⟩

/-- C1 witness: the theorem evaluated on a concrete store and record. -/
theorem markComplete_sets_and_persists_witness :
    getEntry sampleStore "t1" = some sampleRecord ∧
    (∃ s1 res1 r1,
      runEntryAction 5 sampleStore "t1" "markComplete" = some (s1, some (res1, r1)) ∧
      getEntry s1 "t1" = some r1 ∧
      getField r1 "isCompleted" = some (Value.bool true) ∧
      ∃ s2 res2 r2,
        runEntryAction 6 s1 "t1" "markIncomplete" = some (s2, some (res2, r2)) ∧
        getEntry s2 "t1" = some r2 ∧
        getField r2 "isCompleted" = some (Value.bool false)) :=
  ⟨rfl, markComplete_sets_and_persists sampleStore "t1" sampleRecord 5 6 rfl⟩

/-- C5: at most one atomic commit happens per action invocation: each of the
two registered task handlers calls save() exactly once (statically and when
run), and any handler run that makes no save() call leaves the stored record
untouched, so the dispatcher discards uncommitted in-memory changes. -/
theorem at_most_one_commit_per_invocation :
    (∀ a ∈ taskEntry.actions, savesIn a.prog = 1) ∧
    (∀ a ∈ taskEntry.actions, ∀ (r : EntryRecord) (now : Nat),
      (runProg now a.prog (initHandle r)).1.saveCount = 1) ∧
    (∀ (prog : List EntryOp) (now : Nat) (s : HandleState),
      (runProg now prog s).1.saveCount = s.saveCount →
      (runProg now prog s).1.stored = s.stored) := by
  refine ⟨by decide, ?_, fun prog now s hc => runProg_stored_unchanged_without_save now prog s hc⟩
  intro a ha r now
  have h' : a ∈ [markCompleteDef, markIncompleteDef] := ha
  simp only [List.mem_cons, List.not_mem_nil, or_false] at h'
  rcases h' with rfl | rfl <;> rfl

/-- C5 witness: the theorem evaluated on the markComplete handler and on a
concrete handler run that fails before any save() call. -/
theorem at_most_one_commit_per_invocation_witness :
    savesIn markCompleteDef.prog = 1 ∧
    (runProg 7 markCompleteDef.prog (initHandle sampleRecord)).1.saveCount = 1 ∧
    (runProg 7 [EntryOp.setField "title" (Value.str "x"), EntryOp.fail]
        (initHandle sampleRecord)).1.stored = (initHandle sampleRecord).stored :=
  ⟨at_most_one_commit_per_invocation.1 markCompleteDef (by decide),
   at_most_one_commit_per_invocation.2.1 markCompleteDef (by decide) sampleRecord 7,
   at_most_one_commit_per_invocation.2.2
     [EntryOp.setField "title" (Value.str "x"), EntryOp.fail] 7
     (initHandle sampleRecord) (by decide)⟩

/-- C9: for every starting value of isCompleted, markComplete followed by
markIncomplete leaves the persisted record with isCompleted=false, and each
of the two actions is idempotent: running it twice in a row persists the same
isCompleted value as running it once. -/
theorem actions_reverse_and_idempotent (store : Store) (id : String) (r : EntryRecord)
    (n1 n2 n3 n4 n5 n6 : Nat) (h : getEntry store id = some r) :
    (∃ s1 res1 r1 s2 res2 r2,
      runEntryAction n1 store id "markComplete" = some (s1, some (res1, r1)) ∧
      runEntryAction n2 s1 id "markIncomplete" = some (s2, some (res2, r2)) ∧
      getEntry s2 id = some r2 ∧
      getField r2 "isCompleted" = some (Value.bool false)) ∧
    (∃ s1 res1 r1 s2 res2 r2,
      runEntryAction n3 store id "markComplete" = some (s1, some (res1, r1)) ∧
      runEntryAction n4 s1 id "markComplete" = some (s2, some (res2, r2)) ∧
      getField r1 "isCompleted" = some (Value.bool true) ∧
      getField r2 "isCompleted" = getField r1 "isCompleted") ∧
    (∃ s1 res1 r1 s2 res2 r2,
      runEntryAction n5 store id "markIncomplete" = some (s1, some (res1, r1)) ∧
      runEntryAction n6 s1 id "markIncomplete" = some (s2, some (res2, r2)) ∧
      getField r1 "isCompleted" = some (Value.bool false) ∧
      getField r2 "isCompleted" = getField r1 "isCompleted") := by
  refine ⟨?_, ?_, ?_⟩
  · exact ⟨putEntry store id (completedRec n1 r), markCompleteDef.result, completedRec n1 r,
      putEntry (putEntry store id (completedRec n1 r)) id
        (uncompletedRec n2 (completedRec n1 r)),
      markIncompleteDef.result, uncompletedRec n2 (completedRec n1 r),
      runEntryAction_markComplete_eq n1 store id r h,
      runEntryAction_markIncomplete_eq n2 (putEntry store id (completedRec n1 r)) id
        (completedRec n1 r) (getEntry_putEntry_self store id (completedRec n1 r)),
      getEntry_putEntry_self (putEntry store id (completedRec n1 r)) id
        (uncompletedRec n2 (completedRec n1 r)),
      getField_uncompletedRec n2 (completedRec n1 r)⟩
  · refine ⟨putEntry store id (completedRec n3 r), markCompleteDef.result, completedRec n3 r,
      putEntry (putEntry store id (completedRec n3 r)) id
        (completedRec n4 (completedRec n3 r)),
      markCompleteDef.result, completedRec n4 (completedRec n3 r),
      runEntryAction_markComplete_eq n3 store id r h,
      runEntryAction_markComplete_eq n4 (putEntry store id (completedRec n3 r)) id
        (completedRec n3 r) (getEntry_putEntry_self store id (completedRec n3 r)),
      getField_completedRec n3 r, ?_⟩
    rw [getField_completedRec, getField_completedRec]
  · refine ⟨putEntry store id (uncompletedRec n5 r), markIncompleteDef.result,
      uncompletedRec n5 r,
      putEntry (putEntry store id (uncompletedRec n5 r)) id
        (uncompletedRec n6 (uncompletedRec n5 r)),
      markIncompleteDef.result, uncompletedRec n6 (uncompletedRec n5 r),
      runEntryAction_markIncomplete_eq n5 store id r h,
      runEntryAction_markIncomplete_eq n6 (putEntry store id (uncompletedRec n5 r)) id
        (uncompletedRec n5 r) (getEntry_putEntry_self store id (uncompletedRec n5 r)),
      getField_uncompletedRec n5 r, ?_⟩
    rw [getField_uncompletedRec, getField_uncompletedRec]

/-- C9 witness: the theorem evaluated on a concrete store and record. -/
theorem actions_reverse_and_idempotent_witness :
    getEntry sampleStore "t1" = some sampleRecord ∧
    ((∃ s1 res1 r1 s2 res2 r2,
      runEntryAction 1 sampleStore "t1" "markComplete" = some (s1, some (res1, r1)) ∧
      runEntryAction 2 s1 "t1" "markIncomplete" = some (s2, some (res2, r2)) ∧
      getEntry s2 "t1" = some r2 ∧
      getField r2 "isCompleted" = some (Value.bool false)) ∧
    (∃ s1 res1 r1 s2 res2 r2,
      runEntryAction 3 sampleStore "t1" "markComplete" = some (s1, some (res1, r1)) ∧
      runEntryAction 4 s1 "t1" "markComplete" = some (s2, some (res2, r2)) ∧
      getField r1 "isCompleted" = some (Value.bool true) ∧
      getField r2 "isCompleted" = getField r1 "isCompleted") ∧
    (∃ s1 res1 r1 s2 res2 r2,
      runEntryAction 5 sampleStore "t1" "markIncomplete" = some (s1, some (res1, r1)) ∧
      runEntryAction 6 s1 "t1" "markIncomplete" = some (s2, some (res2, r2)) ∧
      getField r1 "isCompleted" = some (Value.bool false) ∧
      getField r2 "isCompleted" = getField r1 "isCompleted")) :=
  ⟨rfl, actions_reverse_and_idempotent sampleStore "t1" sampleRecord 1 2 3 4 5 6 rfl⟩

/-- C10: every invocation of markComplete or markIncomplete mutates only the
isCompleted field: the persisted record keeps the loaded record's id and
createdAt, and every business field other than isCompleted is unchanged. -/
theorem actions_frame_only_isCompleted (store : Store) (id : String) (r : EntryRecord)
    (now : Nat) (key : String)
    (hk : key = "markComplete" ∨ key = "markIncomplete")
    (h : getEntry store id = some r) :
    ∃ s' res r', runEntryAction now store id key = some (s', some (res, r')) ∧
      getEntry s' id = some r' ∧
      r'.id = r.id ∧
      r'.createdAt = r.createdAt ∧
      ∀ k, k ≠ "isCompleted" → getField r' k = getField r k := by
  rcases hk with rfl | rfl
  · exact ⟨putEntry store id (completedRec now r), markCompleteDef.result, completedRec now r,
      runEntryAction_markComplete_eq now store id r h,
      getEntry_putEntry_self store id (completedRec now r),
      rfl, rfl, fun k hkne => getField_completedRec_other now r k hkne⟩
  · exact ⟨putEntry store id (uncompletedRec now r), markIncompleteDef.result,
      uncompletedRec now r,
      runEntryAction_markIncomplete_eq now store id r h,
      getEntry_putEntry_self store id (uncompletedRec now r),
      rfl, rfl, fun k hkne => getField_uncompletedRec_other now r k hkne⟩

/-- C10 witness: the theorem evaluated on a concrete store and record for the
markComplete action. -/
theorem actions_frame_only_isCompleted_witness :
    ("markComplete" = "markComplete" ∨ "markComplete" = "markIncomplete") ∧
    getEntry sampleStore "t1" = some sampleRecord ∧
    (∃ s' res r',
      runEntryAction 9 sampleStore "t1" "markComplete" = some (s', some (res, r')) ∧
      getEntry s' "t1" = some r' ∧
      r'.id = sampleRecord.id ∧
      r'.createdAt = sampleRecord.createdAt ∧
      ∀ k, k ≠ "isCompleted" → getField r' k = getField sampleRecord k) :=
  ⟨Or.inl rfl, rfl,
    actions_frame_only_isCompleted sampleStore "t1" sampleRecord 9 "markComplete"
      (Or.inl rfl) rfl⟩

/-- C2: for every creation payload in which every declared task field is
either omitted or supplied with a value of its kind, and the required title
field is supplied, createEntry succeeds; the returned record carries the
minted id and the stamped timestamps, keeps every supplied declared value,
fills omitted optional fields with their declared defaults (isCompleted
false, priority medium — both declared required=false), leaves optional
fields without a default absent, and drops undeclared payload keys. -/
theorem createEntry_valid_payload (payload : List (String × Value)) (id : String)
    (now : Nat) (h : ∀ f ∈ taskEntry.fields, fieldOk payload f) :
    ∃ r, createEntry payload id now = Except.ok r ∧
      r.id = id ∧ r.createdAt = now ∧ r.updatedAt = now ∧
      (∀ v, lookupKV payload "title" = some v → getField r "title" = some v) ∧
      (∀ v, lookupKV payload "description" = some v → getField r "description" = some v) ∧
      (∀ v, lookupKV payload "isCompleted" = some v → getField r "isCompleted" = some v) ∧
      (∀ v, lookupKV payload "priority" = some v → getField r "priority" = some v) ∧
      (∀ v, lookupKV payload "dueDate" = some v → getField r "dueDate" = some v) ∧
      (lookupKV payload "isCompleted" = none →
        getField r "isCompleted" = some (Value.bool false)) ∧
      (lookupKV payload "priority" = none →
        getField r "priority" = some (Value.str "medium")) ∧
      (lookupKV payload "description" = none → getField r "description" = none) ∧
      (lookupKV payload "dueDate" = none → getField r "dueDate" = none) ∧
      (∀ k, k ∉ taskEntry.fields.map FieldDef.key → getField r k = none) ∧
      isCompletedF.required = false ∧ priorityF.required = false := by
  have e1 : fieldErrOf payload titleF = none :=
    Option.isNone_iff_eq_none.mp (h titleF (by decide))
  have e2 : fieldErrOf payload descriptionF = none :=
    Option.isNone_iff_eq_none.mp (h descriptionF (by decide))
  have e3 : fieldErrOf payload isCompletedF = none :=
    Option.isNone_iff_eq_none.mp (h isCompletedF (by decide))
  have e4 : fieldErrOf payload priorityF = none :=
    Option.isNone_iff_eq_none.mp (h priorityF (by decide))
  have e5 : fieldErrOf payload dueDateF = none :=
    Option.isNone_iff_eq_none.mp (h dueDateF (by decide))
  have hfields : taskEntry.fields = [titleF, descriptionF, isCompletedF, priorityF, dueDateF] :=
    rfl
  have herrs : taskEntry.fields.filterMap (fieldErrOf payload) = [] := by
    rw [hfields]
    simp [List.filterMap_cons, e1, e2, e3, e4, e5]
  have hfield : ∀ (f : FieldDef) (k : String),
      taskEntry.fields.find? (fun g => g.key == k) = some f →
      getField ⟨id, taskEntry.fields.filterMap (resolveField payload), now, now⟩ k =
        Option.map Prod.snd (resolveField payload f) := by
    intro f k hf
    have hk := lookupKV_filterMap_resolveField payload k taskEntry.fields (by decide)
    show lookupKV (taskEntry.fields.filterMap (resolveField payload)) k = _
    rw [hk, hf]
    rfl
  refine ⟨⟨id, taskEntry.fields.filterMap (resolveField payload), now, now⟩,
    ?_, rfl, rfl, rfl, ?_, ?_, ?_, ?_, ?_, ?_, ?_, ?_, ?_, ?_, rfl, rfl⟩
  · unfold createEntry
    rw [herrs]
  · intro v hv
    rw [hfield titleF "title" rfl]
    simp [resolveField, titleF, hv]
  · intro v hv
    rw [hfield descriptionF "description" rfl]
    simp [resolveField, descriptionF, hv]
  · intro v hv
    rw [hfield isCompletedF "isCompleted" rfl]
    simp [resolveField, isCompletedF, hv]
  · intro v hv
    rw [hfield priorityF "priority" rfl]
    simp [resolveField, priorityF, hv]
  · intro v hv
    rw [hfield dueDateF "dueDate" rfl]
    simp [resolveField, dueDateF, hv]
  · intro hv
    rw [hfield isCompletedF "isCompleted" rfl]
    simp [resolveField, isCompletedF, hv]
  · intro hv
    rw [hfield priorityF "priority" rfl]
    simp [resolveField, priorityF, hv]
  · intro hv
    rw [hfield descriptionF "description" rfl]
    simp [resolveField, descriptionF, hv]
  · intro hv
    rw [hfield dueDateF "dueDate" rfl]
    simp [resolveField, dueDateF, hv]
  · intro k hknot
    exact lookupKV_filterMap_resolveField_none payload k taskEntry.fields
      (fun f hf hEq => hknot (hEq ▸ List.mem_map_of_mem FieldDef.key hf))

/-- C2 witness: the theorem evaluated on the concrete payload supplying only
the title field. -/
theorem createEntry_valid_payload_witness :
    (∀ f ∈ taskEntry.fields, fieldOk [("title", Value.str "Buy Groceries")] f) ∧
    (∃ r, createEntry [("title", Value.str "Buy Groceries")] "w1" 3 = Except.ok r ∧
      r.id = "w1" ∧ r.createdAt = 3 ∧ r.updatedAt = 3 ∧
      (∀ v, lookupKV [("title", Value.str "Buy Groceries")] "title" = some v →
        getField r "title" = some v) ∧
      (∀ v, lookupKV [("title", Value.str "Buy Groceries")] "description" = some v →
        getField r "description" = some v) ∧
      (∀ v, lookupKV [("title", Value.str "Buy Groceries")] "isCompleted" = some v →
        getField r "isCompleted" = some v) ∧
      (∀ v, lookupKV [("title", Value.str "Buy Groceries")] "priority" = some v →
        getField r "priority" = some v) ∧
      (∀ v, lookupKV [("title", Value.str "Buy Groceries")] "dueDate" = some v →
        getField r "dueDate" = some v) ∧
      (lookupKV [("title", Value.str "Buy Groceries")] "isCompleted" = none →
        getField r "isCompleted" = some (Value.bool false)) ∧
      (lookupKV [("title", Value.str "Buy Groceries")] "priority" = none →
        getField r "priority" = some (Value.str "medium")) ∧
      (lookupKV [("title", Value.str "Buy Groceries")] "description" = none →
        getField r "description" = none) ∧
      (lookupKV [("title", Value.str "Buy Groceries")] "dueDate" = none →
        getField r "dueDate" = none) ∧
      (∀ k, k ∉ taskEntry.fields.map FieldDef.key → getField r k = none) ∧
      isCompletedF.required = false ∧ priorityF.required = false) :=
  ⟨by decide,
    createEntry_valid_payload [("title", Value.str "Buy Groceries")] "w1" 3 (by decide)⟩

/-- C3: for every creation payload that omits the required title field while
every other declared task field carries no validation failure, createEntry
fails with a FieldValidationError naming exactly the title field with reason
missing_required, and no record is created. -/
theorem createEntry_missing_title (payload : List (String × Value)) (id : String)
    (now : Nat) (hmiss : lookupKV payload "title" = none)
    (hok : ∀ f ∈ taskEntry.fields, f.key ≠ "title" → fieldOk payload f) :
    createEntry payload id now =
      Except.error [{ field := "title", reason := FailReason.missing_required }] := by
  have e1 : fieldErrOf payload titleF =
      some { field := "title", reason := FailReason.missing_required } := by
    simp [fieldErrOf, titleF, hmiss]
  have e2 : fieldErrOf payload descriptionF = none :=
    Option.isNone_iff_eq_none.mp (hok descriptionF (by decide) (by decide))
  have e3 : fieldErrOf payload isCompletedF = none :=
    Option.isNone_iff_eq_none.mp (hok isCompletedF (by decide) (by decide))
  have e4 : fieldErrOf payload priorityF = none :=
    Option.isNone_iff_eq_none.mp (hok priorityF (by decide) (by decide))
  have e5 : fieldErrOf payload dueDateF = none :=
    Option.isNone_iff_eq_none.mp (hok dueDateF (by decide) (by decide))
  have hfields : taskEntry.fields = [titleF, descriptionF, isCompletedF, priorityF, dueDateF] :=
    rfl
  have herrs : taskEntry.fields.filterMap (fieldErrOf payload) =
      [{ field := "title", reason := FailReason.missing_required }] := by
    rw [hfields]
    simp [List.filterMap_cons, e1, e2, e3, e4, e5]
  unfold createEntry
  rw [herrs]

/-- C3 witness: the theorem evaluated on the empty creation payload. -/
theorem createEntry_missing_title_witness :
    lookupKV ([] : List (String × Value)) "title" = none ∧
    (∀ f ∈ taskEntry.fields, f.key ≠ "title" → fieldOk [] f) ∧
    createEntry [] "w3" 0 =
      Except.error [{ field := "title", reason := FailReason.missing_required }] :=
  ⟨rfl, by decide, createEntry_missing_title [] "w3" 0 rfl (by decide)⟩

end TaskTracker
